import Mathlib

/-!
Shallow embedding of the closure-evaluation and proximity-ranking logic of
`src/streamlit_app.py` (hawker-centre open/closed checker), together with
theorems settling the specification claims about it.

Conventions of the embedding:
* A pandas `Timestamp`/`date` becomes the `Date` structure below, compared
  lexicographically by (year, month, day) exactly as Python `datetime.date`
  comparison does.
* A missing value (`NaT`, i.e. `pd.notna(x) = False`) becomes `none`.
* The per-centre dataframe row becomes the `Row` structure, with one field
  per column the core logic reads.
* The geodesic distance column (`geopy.distance.geodesic(...).km`, line 119)
  is an external floating-point library computation; it is abstracted as a
  distance assignment `dval : Row → ℚ` supplied to the ranking functions.
-/

namespace Makan

/-- A calendar date, as Python `datetime.date`: year, month, day. -/
structure Date where
  year : Nat
  month : Nat
  day : Nat
deriving DecidableEq, Repr

/-- `a ≤ b` on dates, lexicographic by (year, month, day), as Python
`date.__le__`. -/
def dateLe (a b : Date) : Bool :=
  decide (a.year < b.year ∨ (a.year = b.year ∧
    (a.month < b.month ∨ (a.month = b.month ∧ a.day ≤ b.day))))

/-- `a < b` on dates, lexicographic strict order, as Python `date.__lt__`. -/
def dateLt (a b : Date) : Bool :=
  decide (a.year < b.year ∨ (a.year = b.year ∧
    (a.month < b.month ∨ (a.month = b.month ∧ a.day < b.day))))

/-- Gregorian leap-year rule (used by the strptime day-of-month validity
check). -/
def isLeapYear (y : Nat) : Bool :=
  (y % 4 = 0 && y % 100 ≠ 0) || y % 400 = 0

/-- Number of days in a month of a given year. -/
def daysInMonth (y m : Nat) : Nat :=
  if m = 2 then (if isLeapYear y then 29 else 28)
  else if m = 4 ∨ m = 6 ∨ m = 9 ∨ m = 11 then 30
  else 31

/-- Parse a raw date field in the fixed `%d%m%Y` (day-month-year, 8 digit)
numeric format used by `pd.to_datetime(..., format=%d%m%Y)` at lines 21-24;
any string that is not 8 digits forming a valid calendar date fails
(`errors=coerce` turns the failure into a missing value, i.e. `none`). -/
def parseDDMMYYYY (s : String) : Option Date :=
  match s.toList with
  | [d1, d2, m1, m2, y1, y2, y3, y4] =>
    if d1.isDigit && d2.isDigit && m1.isDigit && m2.isDigit &&
       y1.isDigit && y2.isDigit && y3.isDigit && y4.isDigit then
      let day := (d1.toNat - 48) * 10 + (d2.toNat - 48)
      let month := (m1.toNat - 48) * 10 + (m2.toNat - 48)
      let year := (y1.toNat - 48) * 1000 + (y2.toNat - 48) * 100 +
                  (y3.toNat - 48) * 10 + (y4.toNat - 48)
      if 1 ≤ month && month ≤ 12 && 1 ≤ day && day ≤ daysInMonth year month then
        some ⟨year, month, day⟩
      else none
    else none
  | _ => none

/-- Does the character list start with the placeholder marker `TBC`? -/
def startsWithTBC : List Char → Bool
  | 'T' :: 'B' :: 'C' :: _ => true
  | _ => false

/-- Substring containment of `TBC` over a character list. -/
def containsTBCAux : List Char → Bool
  | [] => false
  | c :: cs => startsWithTBC (c :: cs) || containsTBCAux cs

/-- `str.contains("TBC")` on the raw field (lines 21-24). -/
def containsTBC (s : String) : Bool :=
  containsTBCAux s.toList

/-- Date normalization of lines 21-24: the raw value is first masked to
missing when it textually contains `TBC` (`.where(~...str.contains("TBC"))`),
and only otherwise handed to the `%d%m%Y` parse, whose failure is also
coerced to missing. -/
def normalizeDate (s : String) : Option Date :=
  if containsTBC s then none else parseDDMMYYYY s

/-- One dataframe row after `load_data`, restricted to the columns the core
logic reads: the centre name, its coordinates, and the normalized date and
remark columns for the four quarterly cleaning windows and the other-works
window. -/
structure Row where
  name : String
  latitude_hc : ℚ
  longitude_hc : ℚ
  q1_cleaningstartdate : Option Date
  q1_cleaningenddate : Option Date
  remarks_q1 : String
  q2_cleaningstartdate : Option Date
  q2_cleaningenddate : Option Date
  remarks_q2 : String
  q3_cleaningstartdate : Option Date
  q3_cleaningenddate : Option Date
  remarks_q3 : String
  q4_cleaningstartdate : Option Date
  q4_cleaningenddate : Option Date
  remarks_q4 : String
  other_works_startdate : Option Date
  other_works_enddate : Option Date
  remarks_other_works : String
deriving DecidableEq, Repr

/-- One element of the `closures` list built at lines 38-53: the dict
`{start, end, remarks, type}` (the `end` key is rendered `endDate` because
`end` is reserved in Lean; `start` likewise `startDate` for symmetry). -/
structure Interval where
  startDate : Date
  endDate : Date
  remarks : String
  type : String
deriving DecidableEq, Repr

/-- The conditional append of lines 43-44 (and 47-53): a (start, end) pair
contributes the dict `{start, end, remarks, type}` exactly when
`pd.notna(start) and pd.notna(end)`, and nothing otherwise. -/
def mkClosure (s e : Option Date) (r k : String) : List Interval :=
  match s, e with
  | some sd, some ed => [⟨sd, ed, r, k⟩]
  | _, _ => []

/-- The `closures` list of lines 38-53: the loop over quarters q1..q4 in
order, then the other-works pair last. -/
def closures (row : Row) : List Interval :=
  mkClosure row.q1_cleaningstartdate row.q1_cleaningenddate row.remarks_q1 "Cleaning" ++
  mkClosure row.q2_cleaningstartdate row.q2_cleaningenddate row.remarks_q2 "Cleaning" ++
  mkClosure row.q3_cleaningstartdate row.q3_cleaningenddate row.remarks_q3 "Cleaning" ++
  mkClosure row.q4_cleaningstartdate row.q4_cleaningenddate row.remarks_q4 "Cleaning" ++
  mkClosure row.other_works_startdate row.other_works_enddate row.remarks_other_works "Other Works"

/-- The range test `(start.dt.date <= today) & (end.dt.date >= today)`
(line 67) for one interval. -/
def coversDate (i : Interval) (d : Date) : Bool :=
  dateLe i.startDate d && dateLe d i.endDate

/-- The `closed_today` dataframe of lines 66-68: the closure rows whose
range contains today. -/
def closed_today (row : Row) (d : Date) : List Interval :=
  (closures row).filter (fun i => coversDate i d)

/-- The closed/open verdict for the selected centre, lines 65-75: guarded by
`not closure_df.empty` (an empty closure list goes to the OPEN branch at
line 75), otherwise closed iff the `closed_today` filter is non-empty. -/
def closedTodayStatus (row : Row) (d : Date) : Bool :=
  if (closures row).isEmpty then false
  else !(closed_today row d).isEmpty

/-- The per-quarter test of `is_open_today` (lines 127 and 131):
`pd.notna(s) and pd.notna(e) and (s.date() <= today <= e.date())`. -/
def quarterCovers (s e : Option Date) (d : Date) : Bool :=
  match s, e with
  | some sd, some ed => dateLe sd d && dateLe d ed
  | _, _ => false

/-- The `is_open_today(row)` function of lines 123-133: scan quarters q1..q4
returning `False` on the first whose window contains today, then the
other-works pair, else `True`. -/
def is_open_today (row : Row) (d : Date) : Bool :=
  if quarterCovers row.q1_cleaningstartdate row.q1_cleaningenddate d then false
  else if quarterCovers row.q2_cleaningstartdate row.q2_cleaningenddate d then false
  else if quarterCovers row.q3_cleaningstartdate row.q3_cleaningenddate d then false
  else if quarterCovers row.q4_cleaningstartdate row.q4_cleaningenddate d then false
  else if quarterCovers row.other_works_startdate row.other_works_enddate d then false
  else true

/-- The `upcoming` frame of lines 78-86: when the closure list is non-empty,
the closure rows with `start.dt.date > today`, in list order; when it is
empty, the empty frame of line 86. -/
def upcoming (row : Row) (d : Date) : List Interval :=
  if (closures row).isEmpty then []
  else (closures row).filter (fun i => dateLt d i.startDate)

/-! ### Helper lemmas shared by the claim theorems -/

lemma exists_covers_mkClosure (s e : Option Date) (r k : String) (d : Date) :
    (∃ i ∈ mkClosure s e r k, coversDate i d = true) ↔ quarterCovers s e d = true := by
  cases s <;> cases e <;> simp [mkClosure, quarterCovers, coversDate]

lemma exists_covers_append (a b : List Interval) (d : Date) :
    (∃ i ∈ a ++ b, coversDate i d = true) ↔
      (∃ i ∈ a, coversDate i d = true) ∨ (∃ i ∈ b, coversDate i d = true) := by
  simp [List.mem_append, or_and_right, exists_or]

lemma exists_covers_closures (row : Row) (d : Date) :
    (∃ i ∈ closures row, coversDate i d = true) ↔
      (quarterCovers row.q1_cleaningstartdate row.q1_cleaningenddate d = true ∨
       quarterCovers row.q2_cleaningstartdate row.q2_cleaningenddate d = true ∨
       quarterCovers row.q3_cleaningstartdate row.q3_cleaningenddate d = true ∨
       quarterCovers row.q4_cleaningstartdate row.q4_cleaningenddate d = true ∨
       quarterCovers row.other_works_startdate row.other_works_enddate d = true) := by
  simp only [closures, exists_covers_append, exists_covers_mkClosure, or_assoc]

lemma closedTodayStatus_iff (row : Row) (d : Date) :
    closedTodayStatus row d = true ↔ ∃ i ∈ closures row, coversDate i d = true := by
  unfold closedTodayStatus closed_today
  cases h : closures row with
  | nil => simp
  | cons a l =>
    simp [List.filter_eq_nil_iff]
    cases hcad : coversDate a d <;> simp [hcad]

lemma is_open_false_iff (row : Row) (d : Date) :
    is_open_today row d = false ↔
      (quarterCovers row.q1_cleaningstartdate row.q1_cleaningenddate d = true ∨
       quarterCovers row.q2_cleaningstartdate row.q2_cleaningenddate d = true ∨
       quarterCovers row.q3_cleaningstartdate row.q3_cleaningenddate d = true ∨
       quarterCovers row.q4_cleaningstartdate row.q4_cleaningenddate d = true ∨
       quarterCovers row.other_works_startdate row.other_works_enddate d = true) := by
  unfold is_open_today
  split_ifs with h1 h2 h3 h4 h5 <;> simp_all

lemma closed_eq_not_open (row : Row) (d : Date) :
    closedTodayStatus row d = !(is_open_today row d) := by
  cases ho : is_open_today row d
  · have hd := (is_open_false_iff row d).mp ho
    have hc := (closedTodayStatus_iff row d).mpr ((exists_covers_closures row d).mpr hd)
    simp [hc]
  · simp only [Bool.not_true]
    cases hc : closedTodayStatus row d
    · rfl
    · exfalso
      have hd := (exists_covers_closures row d).mp ((closedTodayStatus_iff row d).mp hc)
      have hne := (is_open_false_iff row d).mpr hd
      rw [ho] at hne
      exact Bool.noConfusion hne

/-- A row with no resolved closure dates at all (all five pairs missing). -/
def emptyRow : Row :=
  ⟨"Maxwell Food Centre", 1, 103, none, none, "", none, none, "", none, none, "",
   none, none, "", none, none, ""⟩

/-! ### Claim theorems -/

/-- C1: for every centre and date, the closed-on-date check is true iff the
date lies in `[start, end]`, inclusive on both ends, for at least one of the
centre's closure intervals; in particular a centre with an empty closure list
is always reported open. -/
theorem closedTodayStatus_spec (row : Row) (d : Date) :
    (closedTodayStatus row d = true ↔
      ∃ i ∈ closures row, (dateLe i.startDate d = true ∧ dateLe d i.endDate = true)) ∧
    (closures row = [] → closedTodayStatus row d = false) := by
  constructor
  · rw [closedTodayStatus_iff]
    simp only [coversDate, Bool.and_eq_true]
  · intro h
    simp [closedTodayStatus, h]

/-- Witness for C1 at a concrete centre with an empty closure list. -/
theorem closedTodayStatus_spec_witness :
    closures emptyRow = [] ∧ closedTodayStatus emptyRow ⟨2025, 6, 1⟩ = false :=
  ⟨rfl, (closedTodayStatus_spec emptyRow ⟨2025, 6, 1⟩).2 rfl⟩

/-- C3: the closed/open evaluation used for the selected centre and the
per-row `is_open_today` used during proximity ranking agree: for every row
and date, the selected-centre check reports closed exactly when
`is_open_today` reports not-open. -/
theorem closed_iff_not_open_spec (row : Row) (d : Date) :
    closedTodayStatus row d = true ↔ is_open_today row d = false := by
  rw [closed_eq_not_open]
  cases is_open_today row d <;> simp

/-- C4: for every centre and reference date, `upcoming` contains exactly the
closure intervals whose start date is strictly after the reference date, and
is a sublist of the builder's list (emission order q1..q4 then other works,
no re-sorting). -/
theorem upcoming_spec (row : Row) (d : Date) :
    (∀ i, i ∈ upcoming row d ↔ (i ∈ closures row ∧ dateLt d i.startDate = true)) ∧
    List.Sublist (upcoming row d) (closures row) := by
  unfold upcoming
  cases h : closures row with
  | nil => simp
  | cons a l =>
    refine ⟨fun i => ?_, ?_⟩
    · simp [List.mem_filter]
    · simp only [List.isEmpty_cons, Bool.false_eq_true, if_false]
      exact List.filter_sublist _

/-- C5: date normalization yields unknown for any value containing `TBC`
(before any parse attempt); otherwise it applies the fixed day-month-year
parse, so `01012025` yields 2025-01-01; parse failure yields unknown, and
normalization is a total function (never raises). -/
theorem normalizeDate_spec (s : String) :
    (containsTBC s = true → normalizeDate s = none) ∧
    (containsTBC s = false → normalizeDate s = parseDDMMYYYY s) ∧
    normalizeDate "01012025" = some ⟨2025, 1, 1⟩ := by
  refine ⟨fun h => by simp [normalizeDate, h], fun h => by simp [normalizeDate, h], ?_⟩
  decide

/-- Witness for C5 at the concrete placeholder value `TBC`. -/
theorem normalizeDate_spec_witness :
    containsTBC "TBC" = true ∧ normalizeDate "TBC" = none :=
  ⟨by decide, (normalizeDate_spec "TBC").1 (by decide)⟩

lemma length_mkClosure (s e : Option Date) (r k : String) :
    (mkClosure s e r k).length = cond (s.isSome && e.isSome) 1 0 := by
  cases s <;> cases e <;> rfl

/-- A row whose only resolved closure pair is the first quarter. -/
def q1Row : Row :=
  ⟨"Tiong Bahru Market", 1, 103, some ⟨2025, 3, 3⟩, some ⟨2025, 3, 5⟩, "spring cleaning",
   none, none, "", none, none, "", none, none, "", none, none, ""⟩

/-- C6: the builder emits one interval per quarter (and per the other-works
pair) exactly when both its normalized bounds are concrete dates — the
length of the built list is the sum of both-present indicators, so a pair
with either bound unknown contributes nothing — and each fully-resolved
pair's interval is present in the list. -/
theorem closures_emission_spec (row : Row) :
    ((closures row).length =
      (cond (row.q1_cleaningstartdate.isSome && row.q1_cleaningenddate.isSome) 1 0) +
      (cond (row.q2_cleaningstartdate.isSome && row.q2_cleaningenddate.isSome) 1 0) +
      (cond (row.q3_cleaningstartdate.isSome && row.q3_cleaningenddate.isSome) 1 0) +
      (cond (row.q4_cleaningstartdate.isSome && row.q4_cleaningenddate.isSome) 1 0) +
      (cond (row.other_works_startdate.isSome && row.other_works_enddate.isSome) 1 0)) ∧
    (∀ sd ed, row.q1_cleaningstartdate = some sd → row.q1_cleaningenddate = some ed →
      Interval.mk sd ed row.remarks_q1 "Cleaning" ∈ closures row) ∧
    (∀ sd ed, row.q2_cleaningstartdate = some sd → row.q2_cleaningenddate = some ed →
      Interval.mk sd ed row.remarks_q2 "Cleaning" ∈ closures row) ∧
    (∀ sd ed, row.q3_cleaningstartdate = some sd → row.q3_cleaningenddate = some ed →
      Interval.mk sd ed row.remarks_q3 "Cleaning" ∈ closures row) ∧
    (∀ sd ed, row.q4_cleaningstartdate = some sd → row.q4_cleaningenddate = some ed →
      Interval.mk sd ed row.remarks_q4 "Cleaning" ∈ closures row) ∧
    (∀ sd ed, row.other_works_startdate = some sd → row.other_works_enddate = some ed →
      Interval.mk sd ed row.remarks_other_works "Other Works" ∈ closures row) := by
  refine ⟨?_, ?_, ?_, ?_, ?_, ?_⟩
  · simp [closures, length_mkClosure, Nat.add_assoc]
  all_goals intro sd ed hs he
  all_goals simp [closures, mkClosure, hs, he]

/-- Witness for C6: the fully-resolved q1 pair of a concrete row is emitted. -/
theorem closures_emission_spec_witness :
    Interval.mk ⟨2025, 3, 3⟩ ⟨2025, 3, 5⟩ "spring cleaning" "Cleaning" ∈ closures q1Row :=
  (closures_emission_spec q1Row).2.1 ⟨2025, 3, 3⟩ ⟨2025, 3, 5⟩ rfl rfl

/-! ### Proximity ranking (lines 119-139)

The geodesic distance column of line 119 is computed by the external geopy
library; it enters the embedding as the distance assignment `dval`. -/

/-- The `nearby` frame of line 120:
`df[(df.name != selected) & (df.distance < 2)]`. -/
def nearby (dfr : List Row) (dval : Row → ℚ) (selected : String) : List Row :=
  dfr.filter (fun r => decide (r.name ≠ selected) && decide (dval r < 2))

/-- The `nearby_open` frame of lines 135-136: the nearby rows for which
`is_open_today` holds. -/
def nearby_open (dfr : List Row) (dval : Row → ℚ) (selected : String) (d : Date) : List Row :=
  (nearby dfr dval selected).filter (fun r => is_open_today r d)

/-- `drop_duplicates()` over (name, distance) records, keeping the first
occurrence of each exact record, as pandas does at line 139. -/
def dropDuplicatesAux (seen : List (String × ℚ)) : List (String × ℚ) → List (String × ℚ)
  | [] => []
  | x :: xs =>
    if x ∈ seen then dropDuplicatesAux seen xs
    else x :: dropDuplicatesAux (x :: seen) xs

/-- `nearby_open[[name, distance]].drop_duplicates()` of line 139. -/
def dropDuplicates (l : List (String × ℚ)) : List (String × ℚ) :=
  dropDuplicatesAux [] l

/-- `.sort_values(distance)` of line 139: sort the records in ascending
order of the distance component. Pandas uses its default quicksort here,
which is NOT stable, so the order of records with equal distances is
implementation-defined in the source; the embedding has to pick some
concrete sort and uses merge sort, but no theorem below asserts anything
about the relative order of equal-distance records — only order-insensitive
properties (which records appear, and sortedness by distance) are stated. -/
def sort_values (l : List (String × ℚ)) : List (String × ℚ) :=
  l.mergeSort (fun p q => decide (p.2 ≤ q.2))

/-- The displayed nearby-open table of line 139:
`nearby_open[[name, distance]].drop_duplicates().sort_values(distance)`. -/
def nearbyOpenDisplay (dfr : List Row) (dval : Row → ℚ) (selected : String) (d : Date) :
    List (String × ℚ) :=
  sort_values (dropDuplicates ((nearby_open dfr dval selected d).map (fun r => (r.name, dval r))))

lemma mem_dropDuplicatesAux (l : List (String × ℚ)) :
    ∀ (seen : List (String × ℚ)) (x), x ∈ dropDuplicatesAux seen l ↔ (x ∈ l ∧ x ∉ seen) := by
  induction l with
  | nil => intro seen x; simp [dropDuplicatesAux]
  | cons a xs ih =>
    intro seen x
    by_cases ha : a ∈ seen <;> by_cases hx : x = a
    · subst hx; simp [dropDuplicatesAux, if_pos ha, ih, ha]
    · simp [dropDuplicatesAux, if_pos ha, ih, hx]
    · subst hx; simp [dropDuplicatesAux, if_neg ha, ih, ha]
    · simp [dropDuplicatesAux, if_neg ha, ih, hx, List.mem_cons]

lemma mem_dropDuplicates (l : List (String × ℚ)) (x : String × ℚ) :
    x ∈ dropDuplicates l ↔ x ∈ l := by
  simp [dropDuplicates, mem_dropDuplicatesAux]

lemma nodup_dropDuplicatesAux (l : List (String × ℚ)) :
    ∀ seen, (dropDuplicatesAux seen l).Nodup := by
  induction l with
  | nil => intro seen; simp [dropDuplicatesAux]
  | cons a xs ih =>
    intro seen
    by_cases ha : a ∈ seen
    · simpa [dropDuplicatesAux, if_pos ha] using ih seen
    · simp only [dropDuplicatesAux, if_neg ha, List.nodup_cons]
      refine ⟨fun hmem => ?_, ih _⟩
      have := (mem_dropDuplicatesAux xs (a :: seen) a).mp hmem
      exact this.2 (List.mem_cons_self a seen)

lemma distLe_trans (p q s : String × ℚ) :
    (fun p q : String × ℚ => decide (p.2 ≤ q.2)) p q →
    (fun p q : String × ℚ => decide (p.2 ≤ q.2)) q s →
    (fun p q : String × ℚ => decide (p.2 ≤ q.2)) p s := by
  simp only [decide_eq_true_eq]
  exact le_trans

lemma distLe_total (p q : String × ℚ) :
    ((fun p q : String × ℚ => decide (p.2 ≤ q.2)) p q ||
     (fun p q : String × ℚ => decide (p.2 ≤ q.2)) q p) := by
  simp only [Bool.or_eq_true, decide_eq_true_eq]
  exact le_total p.2 q.2

/-- C2: every row of the nearby-open result has a name different from the
selected centre, distance strictly below the 2 km radius, and is not closed
on the reference date. -/
theorem nearby_open_spec (dfr : List Row) (dval : Row → ℚ) (selected : String) (d : Date)
    (r : Row) (hr : r ∈ nearby_open dfr dval selected d) :
    r.name ≠ selected ∧ dval r < 2 ∧ closedTodayStatus r d = false := by
  unfold nearby_open nearby at hr
  simp only [List.mem_filter, Bool.and_eq_true, decide_eq_true_eq] at hr
  obtain ⟨⟨_, hname, hdist⟩, hopen⟩ := hr
  refine ⟨hname, hdist, ?_⟩
  rw [closed_eq_not_open, hopen]
  rfl

/-- Witness for C2 at a one-row dataset whose row qualifies. -/
theorem nearby_open_spec_witness :
    emptyRow.name ≠ "A" ∧ (1 : ℚ) < 2 ∧ closedTodayStatus emptyRow ⟨2025, 1, 1⟩ = false :=
  nearby_open_spec [emptyRow] (fun _ => (1 : ℚ)) "A" ⟨2025, 1, 1⟩ emptyRow (by decide)

/-- Two dataset rows carrying the same centre name at different coordinates
(and so at different distances from the reference location). -/
def rowB1 : Row :=
  ⟨"Berseh Food Centre", 0, 103, none, none, "", none, none, "", none, none, "",
   none, none, "", none, none, ""⟩

/-- Second row with the same name as `rowB1` but a different coordinate. -/
def rowB2 : Row :=
  ⟨"Berseh Food Centre", 1, 103, none, none, "", none, none, "", none, none, "",
   none, none, "", none, none, ""⟩

/-- A concrete distance assignment (two rows at different coordinates get
different distances; here read off the latitude field). -/
def dvalLat (r : Row) : ℚ := r.latitude_hc

/-- C7 counterexample: on a dataset holding the same centre name at two
different distances, the displayed nearby-open table is not deduplicated by
name — it keeps both records, because `drop_duplicates()` at line 139 acts
on whole (name, distance) records. -/
theorem nearbyOpenDisplay_counterexample :
    ¬ List.Pairwise (fun p q : String × ℚ => p.1 ≠ q.1)
        (nearbyOpenDisplay [rowB1, rowB2] dvalLat "A" ⟨2025, 1, 1⟩) := by
  intro hpw
  have hsym : Symmetric (fun p q : String × ℚ => p.1 ≠ q.1) := fun _ _ h => Ne.symm h
  have h1 : ("Berseh Food Centre", (0 : ℚ)) ∈
      nearbyOpenDisplay [rowB1, rowB2] dvalLat "A" ⟨2025, 1, 1⟩ := by
    unfold nearbyOpenDisplay sort_values
    rw [List.mem_mergeSort]
    decide
  have h2 : ("Berseh Food Centre", (1 : ℚ)) ∈
      nearbyOpenDisplay [rowB1, rowB2] dvalLat "A" ⟨2025, 1, 1⟩ := by
    unfold nearbyOpenDisplay sort_values
    rw [List.mem_mergeSort]
    decide
  have hne : (("Berseh Food Centre", (0 : ℚ)) : String × ℚ) ≠ ("Berseh Food Centre", 1) := by
    decide
  exact List.Pairwise.forall hsym hpw h1 h2 hne rfl

/-- C7 amended: the displayed nearby-open table has no duplicate
(name, distance) records — which is deduplication by name exactly when the
dataset is unique by name — is sorted in ascending order of distance, and
contains precisely the (name, distance) records of the nearby-open rows.
The relative order of records with equal distances is not asserted: the
source sorts with pandas' default quicksort, which is not stable. -/
theorem nearbyOpenDisplay_spec (dfr : List Row) (dval : Row → ℚ) (selected : String) (d : Date) :
    (nearbyOpenDisplay dfr dval selected d).Nodup ∧
    List.Pairwise (fun p q : String × ℚ => p.2 ≤ q.2) (nearbyOpenDisplay dfr dval selected d) ∧
    (∀ p, p ∈ nearbyOpenDisplay dfr dval selected d ↔
      p ∈ (nearby_open dfr dval selected d).map (fun r => (r.name, dval r))) := by
  refine ⟨?_, ?_, ?_⟩
  · exact (List.mergeSort_perm _ _).symm.nodup (nodup_dropDuplicatesAux _ [])
  · exact (List.sorted_mergeSort distLe_trans distLe_total _).imp (fun h => of_decide_eq_true h)
  · intro p
    rw [nearbyOpenDisplay, sort_values, List.mem_mergeSort, mem_dropDuplicates]

/-! ### Inverted intervals (start after end) -/

lemma dateLe_trans (a b c : Date) :
    dateLe a b = true → dateLe b c = true → dateLe a c = true := by
  simp only [dateLe, decide_eq_true_eq]
  omega

lemma dateLt_asymm_le (a b : Date) : dateLt a b = true → dateLe b a = false := by
  simp only [dateLt, dateLe, decide_eq_true_eq, decide_eq_false_iff_not]
  omega

/-- A row whose q1 pair is resolved but inverted: start 2025-05-10 after
end 2025-05-01. -/
def invRow : Row :=
  ⟨"Ghim Moh Market", 1, 103, some ⟨2025, 5, 10⟩, some ⟨2025, 5, 1⟩, "repairs",
   none, none, "", none, none, "", none, none, "", none, none, ""⟩

/-- C8 counterexample: a raw pair that resolves with start after end is not
excluded — the builder emits it, so not every built interval has
start ≤ end. -/
theorem closures_inverted_counterexample :
    closures invRow = [⟨⟨2025, 5, 10⟩, ⟨2025, 5, 1⟩, "repairs", "Cleaning"⟩] ∧
    dateLe (Date.mk 2025 5 10) (Date.mk 2025 5 1) = false :=
  ⟨rfl, by decide⟩

/-- A row whose only resolved pair is the other-works one, inverted:
start 2025-08-20 after end 2025-08-15. -/
def invRowOW : Row :=
  ⟨"Adam Road Food Centre", 1, 103, none, none, "", none, none, "", none, none, "",
   none, none, "", some ⟨2025, 8, 20⟩, some ⟨2025, 8, 15⟩, "roof works"⟩

/-- C8 amended: the builder emits every raw pair whose two bounds both
resolve — each of the quarters q1..q4 and the other-works pair alike —
as-is and without crashing, even when the start date is after the end date;
it does not exclude inverted pairs. -/
theorem closures_emits_inverted (row : Row) (sd ed : Date) (hinv : dateLt ed sd = true) :
    (row.q1_cleaningstartdate = some sd → row.q1_cleaningenddate = some ed →
      Interval.mk sd ed row.remarks_q1 "Cleaning" ∈ closures row ∧ dateLe sd ed = false) ∧
    (row.q2_cleaningstartdate = some sd → row.q2_cleaningenddate = some ed →
      Interval.mk sd ed row.remarks_q2 "Cleaning" ∈ closures row ∧ dateLe sd ed = false) ∧
    (row.q3_cleaningstartdate = some sd → row.q3_cleaningenddate = some ed →
      Interval.mk sd ed row.remarks_q3 "Cleaning" ∈ closures row ∧ dateLe sd ed = false) ∧
    (row.q4_cleaningstartdate = some sd → row.q4_cleaningenddate = some ed →
      Interval.mk sd ed row.remarks_q4 "Cleaning" ∈ closures row ∧ dateLe sd ed = false) ∧
    (row.other_works_startdate = some sd → row.other_works_enddate = some ed →
      Interval.mk sd ed row.remarks_other_works "Other Works" ∈ closures row ∧
      dateLe sd ed = false) := by
  have hle := dateLt_asymm_le ed sd hinv
  refine ⟨?_, ?_, ?_, ?_, ?_⟩
  all_goals intro hs he
  all_goals exact ⟨by simp [closures, mkClosure, hs, he], hle⟩

/-- Witness for C8's amended claim at a concrete row whose other-works pair
is inverted. -/
theorem closures_emits_inverted_witness :
    Interval.mk ⟨2025, 8, 20⟩ ⟨2025, 8, 15⟩ "roof works" "Other Works" ∈ closures invRowOW ∧
    dateLe ⟨2025, 8, 20⟩ ⟨2025, 8, 15⟩ = false :=
  (closures_emits_inverted invRowOW ⟨2025, 8, 20⟩ ⟨2025, 8, 15⟩ (by decide)).2.2.2.2 rfl rfl

/-- C10: every built closure interval whose start is strictly after its end
— from whichever of the five slots it was emitted — covers no date at all
(the range test is false for every date), yet it stays in the centre's
closure list and is reported among the upcoming closures whenever its start
is after the reference date. -/
theorem inverted_interval_spec (row : Row) (i : Interval) (d : Date)
    (hmem : i ∈ closures row) (hinv : dateLt i.endDate i.startDate = true) :
    coversDate i d = false ∧ (dateLt d i.startDate = true → i ∈ upcoming row d) := by
  have hle : dateLe i.startDate i.endDate = false := dateLt_asymm_le _ _ hinv
  refine ⟨?_, fun hup => ?_⟩
  · cases h1 : dateLe i.startDate d <;> cases h2 : dateLe d i.endDate <;>
      simp [coversDate, h1, h2]
    have h3 := dateLe_trans i.startDate d i.endDate h1 h2
    rw [hle] at h3
    exact Bool.noConfusion h3
  · have hne : (closures row).isEmpty = false :=
      List.isEmpty_eq_false.mpr (List.ne_nil_of_mem hmem)
    simp only [upcoming, hne, Bool.false_eq_true, if_false, List.mem_filter]
    exact ⟨hmem, hup⟩

/-- Witness for C10 at a concrete inverted other-works interval and a
reference date before that interval's start. -/
theorem inverted_interval_spec_witness :
    Interval.mk ⟨2025, 8, 20⟩ ⟨2025, 8, 15⟩ "roof works" "Other Works" ∈
      upcoming invRowOW ⟨2025, 8, 1⟩ :=
  (inverted_interval_spec invRowOW
    ⟨⟨2025, 8, 20⟩, ⟨2025, 8, 15⟩, "roof works", "Other Works"⟩ ⟨2025, 8, 1⟩
    (by decide) (by decide)).2 (by decide)

end Makan
